import Mathlib

/-!
Verification of the classic-chess rules engine (`chess/app/variants/classic.py`,
`src/domain/pieces.py`) by a shallow embedding in Lean 4.

Conventions of the embedding:
* Positions are pairs of integers `(file, rank)`, zero-based, exactly as in
  `StandardPosition`; arithmetic on coordinates uses `Int` because the Python
  code freely computes off-board coordinates before `validate_position`.
* The board store (`StandardBoard`, not part of the given sources) is modelled
  from the spec's collaborator contract as an association list from positions
  to pieces with `get/put/remove` and enumeration of occupied squares.
* Python sets are modelled as lists; all set results are consumed through
  membership, `any`, or explicit deduplication, so list order is irrelevant.
* Exceptions are modelled by the `Err` type and `Except` results; a method that
  mutates `self` is modelled as a function returning the new state, and the
  commit path `Normal.move` returns the (possibly unchanged) state together
  with an `Except` result, mirroring the fact that a raised exception leaves
  the caller with whatever state the method had built so far.
-/

namespace Chess

/-- The two sides, in the order of `Normal.sides` (`[White, Black]`). -/
inductive Side where
  | White
  | Black
deriving DecidableEq, Repr

/-- Piece kinds of the classic variant (`chess/app/pieces.py`). -/
inductive PieceKind where
  | King
  | Queen
  | Rook
  | Bishop
  | Knight
  | Pawn
deriving DecidableEq, Repr

/-- A piece is a (kind, side) pair; equality is by the pair, matching
`Piece.__eq__` in `src/domain/pieces.py` (two same-side pawns are equal). -/
structure Piece where
  kind : PieceKind
  side : Side
deriving DecidableEq, Repr

/-- Internal position: `(file, rank)`, zero-based (`StandardPosition`). -/
abbrev Pos := Int × Int

/-- Board store: occupied squares with their pieces.  Modelled from the spec:
`StandardBoard` (`chess/app/board.py` is not among the given sources); the
spec's collaborator contract gives `get/put/remove/isOnBoard/allPieces`. -/
abbrev Board := List (Pos × Piece)

/-- A move: source, destination, optional promotion kind (`StandardMove`).
Modelled from the spec: `chess/app/move.py` is not among the given sources;
the spec defines a move as the (source, destination, promotion) triple with
equality by the triple. -/
structure Move where
  source : Pos
  destination : Pos
  promotion : Option PieceKind
deriving DecidableEq, Repr

/-- Validation errors raised by the legality checker
(`chess/exceptions/variant.py`).  `indexError` models the uncaught Python
`IndexError` of `find_pieces(...)[0]` when no king of the moving side exists. -/
inductive Err where
  | noPiece
  | notAValidMove
  | causesCheck
  | notAValidPromotion
  | wrongMoveOrder
  | indexError
deriving DecidableEq, Repr

/-- Decidable equality of `Except` results (for evaluating validation
outcomes on concrete inputs). -/
instance {ε α : Type} [DecidableEq ε] [DecidableEq α] :
    DecidableEq (Except ε α) := fun x y =>
  match x, y with
  | .error a, .error b =>
    if h : a = b then .isTrue (by rw [h])
    else .isFalse (by intro hh; injection hh; simp_all)
  | .error _, .ok _ => .isFalse (by intro hh; injection hh)
  | .ok _, .error _ => .isFalse (by intro hh; injection hh)
  | .ok a, .ok b =>
    if h : a = b then .isTrue (by rw [h])
    else .isFalse (by intro hh; injection hh; simp_all)

/-- `Board.get_piece`: the piece on a square, if any. -/
def getPiece (board : Board) (position : Pos) : Option Piece :=
  (board.find? (fun e => e.1 = position)).map (fun e => e.2)

/-- `Board.remove_piece`: the board without the square's piece, together with
the removed piece (if any). -/
def removePiece (board : Board) (position : Pos) : Board × Option Piece :=
  (board.filter (fun e => ¬ e.1 = position), getPiece board position)

/-- `Board.put_piece`: put a piece on a square, returning the new board and
the displaced piece (if any). -/
def putPiece (piece : Piece) (position : Pos) (board : Board) : Board × Option Piece :=
  (board.filter (fun e => ¬ e.1 = position) ++ [(position, piece)], getPiece board position)

/-- `Board.validate_position`.  Modelled from the spec: `StandardBoard` is the
8×8 board of the classic variant (`init_board_state` uses files/ranks 0–7). -/
def validPos (position : Pos) : Bool :=
  decide (0 ≤ position.1 ∧ position.1 ≤ 7 ∧ 0 ≤ position.2 ∧ position.2 ≤ 7)

/-- `Board.find_pieces`: all occupied squares holding a piece equal (as a
(kind, side) pair) to the requested one. -/
def findPieces (board : Board) (requestedPiece : Piece) : List (Pos × Piece) :=
  board.filter (fun e => e.2 = requestedPiece)

/-- A movement or capture descriptor (`chess/interface/piece.py` movement
profiles): direction vector, maximum distance (`none` models `math.inf`),
symmetric-in-all-8-directions flag, stop-after-first-capture flag. -/
structure MovementDescription where
  vector : Int × Int
  distance : Option Nat
  anyDirection : Bool
  captureBreak : Bool
deriving DecidableEq, Repr

/-- Move descriptors per piece kind.  Modelled from the spec:
`chess/app/pieces.py` is not among the given sources; the spec fixes the
descriptor shape and the catalog is the classic-chess one (rook/bishop/queen
slide unbounded, knight jumps (1,2), king steps one square, a pawn advances
one square forward, side-oriented). -/
def movementMove : PieceKind → List MovementDescription
  | .King => [⟨(1, 0), some 1, true, true⟩, ⟨(1, 1), some 1, true, true⟩]
  | .Queen => [⟨(1, 0), none, true, true⟩, ⟨(1, 1), none, true, true⟩]
  | .Rook => [⟨(1, 0), none, true, true⟩]
  | .Bishop => [⟨(1, 1), none, true, true⟩]
  | .Knight => [⟨(1, 2), some 1, true, true⟩]
  | .Pawn => [⟨(0, 1), some 1, false, true⟩]

/-- Capture descriptors per piece kind.  Modelled from the spec, as for
`movementMove`; a pawn captures one square diagonally forward, side-oriented,
and every classic piece stops its capture ray at the first capture. -/
def movementCapture : PieceKind → List MovementDescription
  | .Pawn => [⟨(1, 1), some 1, false, true⟩, ⟨(-1, 1), some 1, false, true⟩]
  | k => movementMove k

/-- `Normal.__transform_vector`: the applicable direction set of a descriptor
(all 8 rotations/reflections when omnidirectional, otherwise the single
side-oriented vector, negated for Black). -/
def transformVector (vector : Int × Int) (allDirections : Bool) (side : Side) :
    List (Int × Int) :=
  if allDirections then
    ([(vector.1, vector.2), (vector.2, vector.1), (vector.2, -vector.1),
      (vector.1, -vector.2), (-vector.1, -vector.2), (-vector.2, -vector.1),
      (-vector.2, vector.1), (-vector.1, vector.2)]).dedup
  else if side = Side.Black then [(-vector.1, -vector.2)]
  else [(vector.1, vector.2)]

/-- Distance bound of a descriptor.  For an unbounded (`math.inf`) descriptor
the Python loop runs until `validate_position` fails; on the 8×8 board every
ray with a non-zero vector leaves the board within 8 steps, so fuel 8 is
equivalent to the source's unbounded loop. -/
def fuelOf : Option Nat → Nat
  | some d => d
  | none => 8

/-- The ray walk of `Normal.standard_moves`: squares `position + vector * d`
for `d = 1, 2, …`, stopping at the board edge or the first occupied square;
only empty squares are collected. -/
def rayMoves (board : Board) (position : Pos) (v : Int × Int) :
    Nat → Int → List Pos
  | 0, _ => []
  | fuelLeft + 1, d =>
    let newPosition : Pos := (position.1 + v.1 * d, position.2 + v.2 * d)
    if ¬ validPos newPosition then []
    else
      match getPiece board newPosition with
      | some _ => []
      | none => newPosition :: rayMoves board position v fuelLeft (d + 1)

/-- The ray walk of `Normal.standard_captures`: empty squares are skipped
(not collected), an enemy piece is collected (the ray then stops when the
descriptor's capture-break flag is set), a friendly piece stops the ray. -/
def rayCaptures (board : Board) (position : Pos) (v : Int × Int) (side : Side)
    (captureBreak : Bool) : Nat → Int → List Pos
  | 0, _ => []
  | fuelLeft + 1, d =>
    let newPosition : Pos := (position.1 + v.1 * d, position.2 + v.2 * d)
    if ¬ validPos newPosition then []
    else
      match getPiece board newPosition with
      | none => rayCaptures board position v side captureBreak fuelLeft (d + 1)
      | some q =>
        if ¬ q.side = side then
          newPosition ::
            (if captureBreak then []
             else rayCaptures board position v side captureBreak fuelLeft (d + 1))
        else []

/-- The ray walk of `Normal.attacked_fields`: every traversed empty square is
collected, an enemy piece is collected and stops the ray, a friendly piece
stops the ray uncollected. -/
def rayAttacked (board : Board) (position : Pos) (v : Int × Int) (side : Side) :
    Nat → Int → List Pos
  | 0, _ => []
  | fuelLeft + 1, d =>
    let newPosition : Pos := (position.1 + v.1 * d, position.2 + v.2 * d)
    if ¬ validPos newPosition then []
    else
      match getPiece board newPosition with
      | none => newPosition :: rayAttacked board position v side fuelLeft (d + 1)
      | some q => if ¬ q.side = side then [newPosition] else []

/-- Body of `Normal.standard_moves` after its `NoPiece` guard. -/
def standardMovesOf (board : Board) (position : Pos) (piece : Piece) : List Pos :=
  (movementMove piece.kind).flatMap (fun desc =>
    (transformVector desc.vector desc.anyDirection piece.side).flatMap (fun v =>
      rayMoves board position v (fuelOf desc.distance) 1))

/-- Body of `Normal.attacked_fields` after its `NoPiece` guard. -/
def attackedFieldsOf (board : Board) (position : Pos) (piece : Piece) : List Pos :=
  (movementCapture piece.kind).flatMap (fun desc =>
    (transformVector desc.vector desc.anyDirection piece.side).flatMap (fun v =>
      rayAttacked board position v piece.side (fuelOf desc.distance) 1))

/-- `Normal.sides`: ordered list of sides, order = order of moving. -/
def allSides : List Side := [Side.White, Side.Black]

/-- `Normal.attacked_fields_by_sides`: the union of the attacked fields of
every piece belonging to one of the given sides. -/
def attackedFieldsBySides (sides : List Side) (board : Board) : List Pos :=
  board.flatMap (fun e =>
    if e.2.side ∈ sides then attackedFieldsOf board e.1 e.2 else [])

/-- `Normal.who_can_step_here`: the pieces (with their squares) whose attacked
fields contain the given square. -/
def whoCanStepHere (position : Pos) (board : Board) : List (Pos × Piece) :=
  board.filter (fun e => position ∈ attackedFieldsOf board e.1 e.2)

/-- Canonical description of a board layout: the contents of all 64 squares
in a fixed order.  This is the information rendered by `get_fen` and is used
both for the state string and as the repetition key (see `boardKey`). -/
def boardLayout (board : Board) : List (Option Piece) :=
  ((List.range 8).flatMap (fun r => (List.range 8).map
    (fun f => (((f : Int), (r : Int)) : Pos)))).map (getPiece board)

/-- Repetition key of a board.  Modelled from the spec: `Normal.move` records
`hash(self.board)` and §9 of the spec states that the repetition-count key is
derived from a hash of the board object alone; the hash is modelled as the
canonical board layout (an injective stand-in for a layout hash). -/
def boardKey (board : Board) : List (Option Piece) :=
  boardLayout board

/-- One entry of `Normal.__board_history`: the deep-copied 7-tuple pushed by
`Normal.save_history`. -/
structure Snapshot where
  board : Board
  halfMoves : Nat
  positionOccurence : List (List (Option Piece) × Nat)
  enPassant : Option Pos
  halfMovesSincePawnMoved : Nat
  halfMovesSinceCapture : Nat
  castling : List Piece
deriving DecidableEq, Repr

/-- The full mutable state of a `Normal` engine instance.  The castling set
holds `King`/`Queen` piece values per side exactly as in the source; the
per-side pockets are split into two fields. -/
structure GameState where
  board : Board
  halfMoves : Nat
  movesHistory : List Move
  boardHistory : List Snapshot
  positionOccurence : List (List (Option Piece) × Nat)
  enPassant : Option Pos
  halfMovesSincePawnMoved : Nat
  halfMovesSinceCapture : Nat
  castling : List Piece
  pocketWhite : List Piece
  pocketBlack : List Piece
deriving Repr

/-- `Normal.on_move`: `sides[(half_moves - 1) % len(sides)]`. -/
def onMove (st : GameState) : Side :=
  if (st.halfMoves - 1) % 2 = 0 then Side.White else Side.Black

/-- `Normal.moves`: the full-move number `(half_moves + 1) // len(sides)`. -/
def fullMoves (st : GameState) : Nat :=
  (st.halfMoves + 1) / 2

/-- Body of `Normal.special_moves` after its `NoPiece` guard: the pawn
double-step and castling.  Note two faithful quirks of the source: castling
availability is keyed on `self.on_move` (not on the piece's own side), the
attacked set is computed on `self.board` even when a board override is given,
and the queen-side check computes the same square (`file - 2`) twice, so the
b-file square is never tested for emptiness. -/
def specialMovesOf (st : GameState) (board : Board) (position : Pos)
    (piece : Piece) : List Pos :=
  if piece.kind = PieceKind.Pawn then
    let newPosition : Option Pos :=
      if piece = ⟨PieceKind.Pawn, Side.Black⟩ ∧ position.2 = 6 ∧
          getPiece board (position.1, 5) = none then
        some (position.1, position.2 - 2)
      else if piece = ⟨PieceKind.Pawn, Side.White⟩ ∧ position.2 = 1 ∧
          getPiece board (position.1, 2) = none then
        some (position.1, position.2 + 2)
      else none
    match newPosition with
    | some np => if validPos np ∧ getPiece board np = none then [np] else []
    | none => []
  else if piece.kind = PieceKind.King ∧ ¬ st.castling = [] ∧ position.1 = 4 then
    let attackedF :=
      attackedFieldsBySides (allSides.filter (fun s => ¬ s = onMove st)) st.board
    let kingSide : List Pos :=
      if (⟨PieceKind.King, onMove st⟩ : Piece) ∈ st.castling then
        let pos1 : Pos := (position.1 + 1, position.2)
        let pos2 : Pos := (position.1 + 2, position.2)
        if getPiece board pos1 = none ∧ getPiece board pos2 = none ∧
            ¬ pos1 ∈ attackedF ∧ ¬ pos2 ∈ attackedF then [pos2]
        else []
      else []
    let queenSide : List Pos :=
      if (⟨PieceKind.Queen, onMove st⟩ : Piece) ∈ st.castling then
        let pos1 : Pos := (position.1 - 1, position.2)
        let pos2 : Pos := (position.1 - 2, position.2)
        let pos3 : Pos := (position.1 - 2, position.2)
        if getPiece board pos1 = none ∧ getPiece board pos2 = none ∧
            getPiece board pos3 = none ∧
            ¬ pos1 ∈ attackedF ∧ ¬ pos2 ∈ attackedF then [pos2]
        else []
      else []
    kingSide ++ queenSide
  else []

/-- Body of `Normal.standard_captures` after its `NoPiece` guard, including
the en-passant clause (the en-passant square is offered when the pawn's
attacked fields contain it). -/
def standardCapturesOf (st : GameState) (board : Board) (position : Pos)
    (piece : Piece) : List Pos :=
  (match st.enPassant with
   | some ep =>
     if piece.kind = PieceKind.Pawn ∧ ep ∈ attackedFieldsOf board position piece
     then [ep] else []
   | none => []) ++
  (movementCapture piece.kind).flatMap (fun desc =>
    (transformVector desc.vector desc.anyDirection piece.side).flatMap (fun v =>
      rayCaptures board position v piece.side desc.captureBreak
        (fuelOf desc.distance) 1))

/-- `Normal.standard_moves` with an explicit board argument (the Python
default `board=None` means `self.board`). -/
def standardMoves (board : Board) (position : Pos) : Except Err (List Pos) :=
  match getPiece board position with
  | none => .error .noPiece
  | some piece => .ok (standardMovesOf board position piece)

/-- `Normal.standard_captures` with an explicit board argument. -/
def standardCaptures (st : GameState) (board : Board) (position : Pos) :
    Except Err (List Pos) :=
  match getPiece board position with
  | none => .error .noPiece
  | some piece => .ok (standardCapturesOf st board position piece)

/-- `Normal.special_moves` with an explicit board argument. -/
def specialMoves (st : GameState) (board : Board) (position : Pos) :
    Except Err (List Pos) :=
  match getPiece board position with
  | none => .error .noPiece
  | some piece => .ok (specialMovesOf st board position piece)

/-- `Normal.attacked_fields` with an explicit board argument. -/
def attackedFields (board : Board) (position : Pos) : Except Err (List Pos) :=
  match getPiece board position with
  | none => .error .noPiece
  | some piece => .ok (attackedFieldsOf board position piece)

/-- `Normal.assert_move`: validate a move against the current state without
touching it (the test board is a deep copy in the source; here the function
simply returns no state, which is the same read-only behaviour). -/
def assertMove (st : GameState) (m : Move) : Except Err Unit :=
  match getPiece st.board m.source with
  | none => .error .noPiece
  | some piece =>
    let availableDest :=
      standardMovesOf st.board m.source piece ++
      standardCapturesOf st st.board m.source piece ++
      specialMovesOf st st.board m.source piece
    if m.destination ∈ availableDest then
      let testBoard0 := (putPiece piece m.destination
        (removePiece st.board m.source).1).1
      let testBoard :=
        if piece.kind = PieceKind.Pawn ∧ some m.destination = st.enPassant then
          (removePiece testBoard0 (m.destination.1, m.source.2)).1
        else testBoard0
      match (findPieces testBoard ⟨PieceKind.King, onMove st⟩).head? with
      | none => .error .indexError
      | some kp =>
        if kp.1 ∈ attackedFieldsBySides
            (allSides.filter (fun s => ¬ s = piece.side)) testBoard then
          .error .causesCheck
        else if piece.kind = PieceKind.Pawn ∧
            (m.destination.2 = 7 ∨ m.destination.2 = 0) ∧
            m.promotion = none then
          .error .notAValidPromotion
        else .ok ()
    else .error .notAValidMove

/-- Python set difference on the castling set: `castling - removeSet`. -/
def setDiff (castling removeSet : List Piece) : List Piece :=
  castling.filter (fun p => ¬ p ∈ removeSet)

/-- Home squares used by `Normal.__update_castling_info` (the source matches
the string literals `e1`, `a1`, `h1`, `e8`, `a8`, `h8`). -/
def e1 : Pos := (4, 0)
def a1 : Pos := (0, 0)
def h1 : Pos := (7, 0)
def e8 : Pos := (4, 7)
def a8 : Pos := (0, 7)
def h8 : Pos := (7, 7)

/-- The first if/elif chain of `Normal.__update_castling_info` (White's home
squares `e1`/`a1`/`h1`). -/
def updateCastlingWhite (castling : List Piece) (source destination : Pos) :
    List Piece :=
  if source = e1 then
    setDiff castling [⟨PieceKind.King, Side.White⟩, ⟨PieceKind.Queen, Side.White⟩]
  else if source = a1 ∨ destination = a1 then
    setDiff castling [⟨PieceKind.Queen, Side.White⟩]
  else if source = h1 ∨ destination = h1 then
    setDiff castling [⟨PieceKind.King, Side.White⟩]
  else castling

/-- The second if/elif chain of `Normal.__update_castling_info` (Black's home
squares `e8`/`a8`/`h8`). -/
def updateCastlingBlack (castling : List Piece) (source destination : Pos) :
    List Piece :=
  if source = e8 then
    setDiff castling [⟨PieceKind.King, Side.Black⟩, ⟨PieceKind.Queen, Side.Black⟩]
  else if source = a8 ∨ destination = a8 then
    setDiff castling [⟨PieceKind.Queen, Side.Black⟩]
  else if source = h8 ∨ destination = h8 then
    setDiff castling [⟨PieceKind.King, Side.Black⟩]
  else castling

/-- `Normal.__update_castling_info`: remove castling abilities revoked by a
move from `source` to `destination` (two sequential if/elif chains, one per
side; rights are only ever removed). -/
def updateCastlingInfo (castling : List Piece) (source destination : Pos) :
    List Piece :=
  if castling = [] then castling
  else updateCastlingBlack (updateCastlingWhite castling source destination)
    source destination

/-- `Normal.save_history`'s snapshot: the deep-copied 7-tuple of mutable
state (the deep copy is value copying, which is implicit here). -/
def snapshot (st : GameState) : Snapshot :=
  ⟨st.board, st.halfMoves, st.positionOccurence, st.enPassant,
   st.halfMovesSincePawnMoved, st.halfMovesSinceCapture, st.castling⟩

/-- Increment of the `defaultdict(int)` entry for a key
(`self.__position_occurence[hash(self.board)] += 1`). -/
def bumpOcc (occ : List (List (Option Piece) × Nat))
    (key : List (Option Piece)) : List (List (Option Piece) × Nat) :=
  if occ.any (fun e => e.1 = key) then
    occ.map (fun e => if e.1 = key then (e.1, e.2 + 1) else e)
  else occ ++ [(key, 1)]

/-- The rook relocation of a castling commit: move the piece standing on the
rook home square of the castled wing to its post-castling square.  In the
source `remove_piece` followed by `put_piece` of its result; if the rook
square is empty the source would `put_piece(None, …)`, which clears the
target square — modelled accordingly. -/
def castleRookMove (board : Board) (rank : Int) (kingCastle : Bool) : Board :=
  let fromPos : Pos := if kingCastle then (7, rank) else (0, rank)
  let toPos : Pos := if kingCastle then (5, rank) else (3, rank)
  let removed := removePiece board fromPos
  match removed.2 with
  | some rook => (putPiece rook toPos removed.1).1
  | none => (removePiece removed.1 toPos).1

/-- The board produced by the mutation steps of `Normal.move`: relocate the
piece, resolve en-passant removal, promotion substitution, and the castling
rook relocation, in source order. -/
def boardAfterMove (st : GameState) (m : Move) (movedPiece : Piece) : Board :=
  let b2 := (putPiece movedPiece m.destination
    (removePiece st.board m.source).1).1
  let b3 :=
    if movedPiece.kind = PieceKind.Pawn ∧ some m.destination = st.enPassant then
      (removePiece b2 (m.destination.1, m.source.2)).1
    else b2
  let b4 :=
    if movedPiece.kind = PieceKind.Pawn ∧
        (m.destination.2 = 7 ∨ m.destination.2 = 0) then
      match m.promotion with
      | some k => (putPiece ⟨k, onMove st⟩ m.destination b3).1
      | none => b3
    else b3
  if movedPiece.kind = PieceKind.King ∧
      (m.source.1 - m.destination.1).natAbs = 2 then
    if m.destination.1 = 6 then castleRookMove b4 m.source.2 true
    else if m.destination.1 = 2 then castleRookMove b4 m.source.2 false
    else b4
  else b4

/-- The captured piece of a commit (`taken_piece` in `Normal.move`): the
piece displaced at the destination, overridden by the en-passant-captured
pawn when the move is an en-passant capture. -/
def takenPiece (st : GameState) (m : Move) (movedPiece : Piece) : Option Piece :=
  if movedPiece.kind = PieceKind.Pawn ∧ some m.destination = st.enPassant then
    getPiece (putPiece movedPiece m.destination
      (removePiece st.board m.source).1).1 (m.destination.1, m.source.2)
  else getPiece (removePiece st.board m.source).1 m.destination

/-- The en-passant target after a commit: set only on a fresh two-square pawn
advance (the skipped square, `int((source.rank + destination.rank) / 2)`,
exact here because both ranks are non-negative), cleared otherwise. -/
def enPassantAfter (st : GameState) (m : Move) (movedPiece : Piece) : Option Pos :=
  if movedPiece.kind = PieceKind.Pawn then
    if (m.source.2 - m.destination.2).natAbs = 2 then
      some (m.source.1, (m.source.2 + m.destination.2) / 2)
    else none
  else none

/-- The state mutations of `Normal.move` after its validations succeeded:
push the snapshot, execute the move on the board, update the en-passant
target, the two sub-counters, the pocket, the castling set, the repetition
table, the move history and the half-move counter.  The source performs these
assignments sequentially; they are written here field by field with the same
data flow (every right-hand side reads pre-move state, except the repetition
key, which reads the post-move board). -/
def commitMove (st : GameState) (m : Move) (movedPiece : Piece) : GameState :=
  { board := boardAfterMove st m movedPiece
    halfMoves := st.halfMoves + 1
    movesHistory := st.movesHistory ++ [m]
    boardHistory := st.boardHistory ++ [snapshot st]
    positionOccurence :=
      bumpOcc st.positionOccurence (boardKey (boardAfterMove st m movedPiece))
    enPassant := enPassantAfter st m movedPiece
    halfMovesSincePawnMoved :=
      if movedPiece.kind = PieceKind.Pawn then 0
      else st.halfMovesSincePawnMoved + 1
    halfMovesSinceCapture :=
      if takenPiece st m movedPiece = none then st.halfMovesSinceCapture + 1
      else 0
    castling := updateCastlingInfo st.castling m.source m.destination
    pocketWhite :=
      match takenPiece st m movedPiece with
      | some t => if onMove st = Side.White then st.pocketWhite ++ [t]
                  else st.pocketWhite
      | none => st.pocketWhite
    pocketBlack :=
      match takenPiece st m movedPiece with
      | some t => if onMove st = Side.Black then st.pocketBlack ++ [t]
                  else st.pocketBlack
      | none => st.pocketBlack }

/-- `Normal.move`: validate, then commit.  The returned state is the state
the caller observes afterwards; on a validation error it is the unchanged
input state, because the source raises before its first mutation. -/
def move (st : GameState) (m : Move) : GameState × Except Err (Option Piece) :=
  match assertMove st m with
  | .error e => (st, .error e)
  | .ok _ =>
    match getPiece st.board m.source with
    | none => (st, .error .indexError)
    | some movedPiece =>
      if movedPiece.side = onMove st then
        (commitMove st m movedPiece, .ok (takenPiece st m movedPiece))
      else (st, .error .wrongMoveOrder)

/-- Pop `offset` entries from the end of a list (`list.pop()` repeated). -/
def popN (offset : Nat) (l : List α) : List α :=
  match offset with
  | 0 => l
  | n + 1 => popN n l.dropLast

/-- `Normal.load_history`: restore the snapshot `offset` plies back (index
`half_moves - offset - 1` into the snapshot stack), then pop `offset` entries
from the move history and the snapshot stack.  An out-of-range index is a
programming error in the source (IndexError); it is modelled as `none`. -/
def loadHistory (offset : Nat) (st : GameState) : Option GameState :=
  match st.boardHistory.get? (st.halfMoves - offset - 1) with
  | none => none
  | some snap =>
    some { board := snap.board
           halfMoves := snap.halfMoves
           movesHistory := popN offset st.movesHistory
           boardHistory := popN offset st.boardHistory
           positionOccurence := snap.positionOccurence
           enPassant := snap.enPassant
           halfMovesSincePawnMoved := snap.halfMovesSincePawnMoved
           halfMovesSinceCapture := snap.halfMovesSinceCapture
           castling := snap.castling
           pocketWhite := st.pocketWhite
           pocketBlack := st.pocketBlack }

/-- `Normal.can_i_make_a_move`: for every piece of the side to move, try
`assert_move` on every generated destination (captures, then moves, then
special moves) and report whether any succeeds.  Modelled from the spec:
the exception hierarchy (`chess/exceptions/variant.py` is not among the given
sources) is taken, per §4.3 of the spec, to let the `except` clause skip
every validation failure. -/
def canIMakeAMove (st : GameState) : Bool :=
  st.board.any (fun e =>
    e.2.side = onMove st &&
    ((standardCapturesOf st st.board e.1 e.2 ++
      standardMovesOf st.board e.1 e.2 ++
      specialMovesOf st st.board e.1 e.2).any
      (fun dest => (assertMove st ⟨e.1, dest, none⟩).isOk)))

/-- `Normal.all_available_moves`: the set of all legal moves of a side, by
generating the destination union of every piece of that side and filtering
with `assert_move` (failures are skipped, as in `canIMakeAMove`). -/
def allAvailableMoves (st : GameState) (side : Side) : List Move :=
  (st.board.flatMap (fun e =>
    if e.2.side = side then
      ((standardMovesOf st.board e.1 e.2 ++
        standardCapturesOf st st.board e.1 e.2 ++
        specialMovesOf st st.board e.1 e.2).dedup).filterMap
        (fun dest =>
          if (assertMove st ⟨e.1, dest, none⟩).isOk then
            some (⟨e.1, dest, none⟩ : Move)
          else none)
    else [])).dedup

/-- The distinct pieces on the board (`{piece for _, piece in board.pieces}`,
a set of (kind, side) values). -/
def material (st : GameState) : List Piece :=
  (st.board.map (fun e => e.2)).dedup

/-- Python set equality of two piece collections. -/
def pieceSetEq (l1 l2 : List Piece) : Bool :=
  decide (l1 ⊆ l2 ∧ l2 ⊆ l1)

/-- `Normal.game_state`: (optional set of winning sides, optional verdict),
evaluated in source order: insufficient material, fifty-move rule, threefold
repetition, then no-move-available (checkmate or stalemate).  The winning-set
values are side lists with set meaning.  The source's `find_pieces(...)[0]`
would raise IndexError when the side to move has no king; that (unreachable
in real games) case is modelled as `(none, none)`. -/
def gameState (st : GameState) : Option (List Side) × Option String :=
  let pieces := material st
  if pieces.length < 4 ∧ pieceSetEq pieces
      [⟨PieceKind.King, Side.White⟩, ⟨PieceKind.King, Side.Black⟩] = true then
    (some allSides, some "insufficient material")
  else if pieces.length < 4 ∧ pieceSetEq pieces
      [⟨PieceKind.King, Side.White⟩, ⟨PieceKind.King, Side.Black⟩,
       ⟨PieceKind.Knight, Side.White⟩] = true ∧ canIMakeAMove st = false then
    (some allSides, some "insufficient material")
  else if pieces.length < 4 ∧ pieceSetEq pieces
      [⟨PieceKind.King, Side.White⟩, ⟨PieceKind.King, Side.Black⟩,
       ⟨PieceKind.Knight, Side.Black⟩] = true ∧ canIMakeAMove st = false then
    (some allSides, some "insufficient material")
  else if pieces.length < 4 ∧ pieceSetEq pieces
      [⟨PieceKind.King, Side.White⟩, ⟨PieceKind.King, Side.Black⟩,
       ⟨PieceKind.Bishop, Side.White⟩] = true ∧ canIMakeAMove st = false then
    (some allSides, some "insufficient material")
  else if pieces.length < 4 ∧ pieceSetEq pieces
      [⟨PieceKind.King, Side.White⟩, ⟨PieceKind.King, Side.Black⟩,
       ⟨PieceKind.Bishop, Side.Black⟩] = true ∧ canIMakeAMove st = false then
    (some allSides, some "insufficient material")
  else if 50 ≤ st.halfMovesSincePawnMoved ∧ 50 ≤ st.halfMovesSinceCapture then
    (some allSides, some "fifty-move rule")
  else if st.positionOccurence.any (fun e => 3 ≤ e.2) then
    (some allSides, some "threefold repetition")
  else if canIMakeAMove st = false then
    match (findPieces st.board ⟨PieceKind.King, onMove st⟩).head? with
    | none => (none, none)
    | some kp =>
      if kp.1 ∈ attackedFieldsBySides
          (allSides.filter (fun s => ¬ s = onMove st)) st.board then
        (some (allSides.filter (fun s => ¬ s = onMove st)), some "check mate")
      else (some allSides, some "stalemate")
  else (none, none)

/-- The castling-rights letters of `Normal.__str__` (`''.join(sorted(...))`,
`-` if empty): rendered here as the membership quadruple (K, Q, k, q), which
determines the sorted letter string injectively. -/
def castlingFen (castling : List Piece) : Bool × Bool × Bool × Bool :=
  (decide ((⟨PieceKind.King, Side.White⟩ : Piece) ∈ castling),
   decide ((⟨PieceKind.Queen, Side.White⟩ : Piece) ∈ castling),
   decide ((⟨PieceKind.King, Side.Black⟩ : Piece) ∈ castling),
   decide ((⟨PieceKind.Queen, Side.Black⟩ : Piece) ∈ castling))

/-- The components of the state string, one field per space-separated part of
`Normal.__str__`. -/
structure StateText where
  boardFen : List (Option Piece)
  onMoveChar : Side
  castlingLetters : Bool × Bool × Bool × Bool
  enPassantText : Option Pos
  halfSincePawn : Nat
  movesText : Nat
deriving DecidableEq, Repr

/-- `Normal.__str__`, the state string: board layout, side-to-move character,
castling-rights letters, en-passant square, the smaller of the two half-move
sub-counters, and the full-move number — rendered componentwise (each
component's textual rendering in the source is an injective image of the
component used here, and the components are space-separated in the string, so
componentwise equality coincides with string equality). -/
def stateString (st : GameState) : StateText :=
  ⟨boardLayout st.board, onMove st, castlingFen st.castling, st.enPassant,
   min st.halfMovesSincePawnMoved st.halfMovesSinceCapture, fullMoves st⟩

/-- `Normal.init_board_state`: the classic-chess starting layout, in source
order. -/
def initBoard : Board :=
  [((0, 0), ⟨PieceKind.Rook, Side.White⟩),
   ((7, 0), ⟨PieceKind.Rook, Side.White⟩),
   ((1, 0), ⟨PieceKind.Knight, Side.White⟩),
   ((6, 0), ⟨PieceKind.Knight, Side.White⟩),
   ((2, 0), ⟨PieceKind.Bishop, Side.White⟩),
   ((5, 0), ⟨PieceKind.Bishop, Side.White⟩),
   ((3, 0), ⟨PieceKind.Queen, Side.White⟩),
   ((4, 0), ⟨PieceKind.King, Side.White⟩),
   ((0, 1), ⟨PieceKind.Pawn, Side.White⟩),
   ((1, 1), ⟨PieceKind.Pawn, Side.White⟩),
   ((2, 1), ⟨PieceKind.Pawn, Side.White⟩),
   ((3, 1), ⟨PieceKind.Pawn, Side.White⟩),
   ((4, 1), ⟨PieceKind.Pawn, Side.White⟩),
   ((5, 1), ⟨PieceKind.Pawn, Side.White⟩),
   ((6, 1), ⟨PieceKind.Pawn, Side.White⟩),
   ((7, 1), ⟨PieceKind.Pawn, Side.White⟩),
   ((0, 6), ⟨PieceKind.Pawn, Side.Black⟩),
   ((1, 6), ⟨PieceKind.Pawn, Side.Black⟩),
   ((2, 6), ⟨PieceKind.Pawn, Side.Black⟩),
   ((3, 6), ⟨PieceKind.Pawn, Side.Black⟩),
   ((4, 6), ⟨PieceKind.Pawn, Side.Black⟩),
   ((5, 6), ⟨PieceKind.Pawn, Side.Black⟩),
   ((6, 6), ⟨PieceKind.Pawn, Side.Black⟩),
   ((7, 6), ⟨PieceKind.Pawn, Side.Black⟩),
   ((0, 7), ⟨PieceKind.Rook, Side.Black⟩),
   ((7, 7), ⟨PieceKind.Rook, Side.Black⟩),
   ((1, 7), ⟨PieceKind.Knight, Side.Black⟩),
   ((6, 7), ⟨PieceKind.Knight, Side.Black⟩),
   ((2, 7), ⟨PieceKind.Bishop, Side.Black⟩),
   ((5, 7), ⟨PieceKind.Bishop, Side.Black⟩),
   ((3, 7), ⟨PieceKind.Queen, Side.Black⟩),
   ((4, 7), ⟨PieceKind.King, Side.Black⟩)]

/-- `Normal.__init__` with `init_board_state=True`: the engine state at game
start (half-move counter 1, empty histories and counters, full castling
set `{King(side), Queen(side)}` for both sides, empty pockets). -/
def initState : GameState :=
  { board := initBoard
    halfMoves := 1
    movesHistory := []
    boardHistory := []
    positionOccurence := []
    enPassant := none
    halfMovesSincePawnMoved := 0
    halfMovesSinceCapture := 0
    castling := [⟨PieceKind.King, Side.White⟩, ⟨PieceKind.Queen, Side.White⟩,
                 ⟨PieceKind.King, Side.Black⟩, ⟨PieceKind.Queen, Side.Black⟩]
    pocketWhite := []
    pocketBlack := [] }

/-!  Position/text conversion (`src/domain/pieces.py`, `StandardPosition`).
A file string is modelled as the list of its letters' alphabet indices
(`ascii_lowercase.index`, `a` = 0 … `z` = 25 — a bijective rendering of the
lowercase letter string); a rank string as the list of its decimal digits. -/

/-- The `while` loop of `StandardPosition.__file_from_int_to_str` computing
the number of output letters: starting at 1, increment while
`26 ** output_chars <= file`.  The fuel argument only bounds the loop
(`26 ^ c > file` certainly holds once `c > file`), it never cuts it short. -/
def outputCharsAux (file : Nat) : Nat → Nat → Nat
  | 0, c => c
  | fuelLeft + 1, c =>
    if 26 ^ c ≤ file then outputCharsAux file fuelLeft (c + 1) else c

/-- Number of letters used to render a file number. -/
def outputChars (file : Nat) : Nat :=
  outputCharsAux file (file + 1) 1

/-- `StandardPosition.__file_from_int_to_str`: little-endian base-26 digits
`(file // 26 ** i) % 26` for `i` below the letter count, rendered in reverse
(most significant first). -/
def fileFromIntToStr (file : Nat) : List Nat :=
  ((List.range (outputChars file)).map (fun i => file / 26 ^ i % 26)).reverse

/-- The accumulation loop of `StandardPosition.__file_from_str_to_int` over
the reversed letter values: the letter at reversed index 0 contributes its
value, the letter at reversed index `c ≥ 1` contributes `(value * 26) ** c`
(sic — the source exponentiates the product). -/
def fileValueAux : List Nat → Nat → Nat
  | [], _ => 0
  | v :: rest, c =>
    (if c = 0 then v else (v * 26) ^ c) + fileValueAux rest (c + 1)

/-- `StandardPosition.__file_from_str_to_int`. -/
def fileFromStrToInt (letters : List Nat) : Nat :=
  fileValueAux letters.reverse 0

/-- Little-endian decimal digits of a natural number (the digit sequence of
Python's `str(n)`, reversed); structural fuel recursion on `n` itself. -/
def natDigitsAux : Nat → Nat → List Nat
  | 0, _ => []
  | _ + 1, 0 => []
  | fuelLeft + 1, n + 1 => (n + 1) % 10 :: natDigitsAux fuelLeft ((n + 1) / 10)

/-- Little-endian decimal digits of `n` (empty for 0). -/
def natDecimalDigits (n : Nat) : List Nat :=
  natDigitsAux n n

/-- `StandardPosition.__rank_from_int_to_str`: `str(rank + 1)`, rendered as
its decimal digit list (most significant first). -/
def rankFromIntToStr (rank : Nat) : List Nat :=
  (natDecimalDigits (rank + 1)).reverse

/-- `StandardPosition.__rank_from_str_to_int`: `int(rank) - 1` (the result is
an integer, since the source's subtraction can go below zero). -/
def rankFromStrToInt (digits : List Nat) : Int :=
  ((digits.foldl (fun a d => 10 * a + d) 0 : Nat) : Int) - 1

/-! Shared helper lemmas. -/

lemma setDiff_subset (c r : List Piece) : setDiff c r ⊆ c :=
  List.filter_subset' c

lemma updateCastlingWhite_subset (c : List Piece) (s d : Pos) :
    updateCastlingWhite c s d ⊆ c := by
  unfold updateCastlingWhite
  split_ifs <;> first | exact setDiff_subset _ _ | exact fun x hx => hx

lemma updateCastlingBlack_subset (c : List Piece) (s d : Pos) :
    updateCastlingBlack c s d ⊆ c := by
  unfold updateCastlingBlack
  split_ifs <;> first | exact setDiff_subset _ _ | exact fun x hx => hx

lemma updateCastlingInfo_subset (c : List Piece) (s d : Pos) :
    updateCastlingInfo c s d ⊆ c := by
  unfold updateCastlingInfo
  split_ifs
  · exact fun x hx => hx
  · exact List.Subset.trans (updateCastlingBlack_subset _ _ _)
      (updateCastlingWhite_subset _ _ _)

lemma get_concat_length (l : List Snapshot) (a : Snapshot) :
    (l ++ [a]).get? l.length = some a := by
  induction l with
  | nil => rfl
  | cons x xs ih => simpa using ih

lemma outputCharsAux_succ (file fuelLeft c : Nat) :
    outputCharsAux file (fuelLeft + 1) c =
      if 26 ^ c ≤ file then outputCharsAux file fuelLeft (c + 1) else c := rfl

lemma outputChars_one (f : Nat) (hf : f < 26) : outputChars f = 1 := by
  unfold outputChars
  rw [outputCharsAux_succ, if_neg (by omega)]

lemma outputChars_two (f : Nat) (h1 : 26 ≤ f) (h2 : f < 676) :
    outputChars f = 2 := by
  obtain ⟨k, rfl⟩ : ∃ k, f = k + 26 := ⟨f - 26, by omega⟩
  unfold outputChars
  rw [outputCharsAux_succ, if_pos (by omega), show k + 26 = (k + 25) + 1 from rfl,
    outputCharsAux_succ, if_neg (by omega)]

lemma outputChars_three (f : Nat) (h1 : 676 ≤ f) (h2 : f < 17576) :
    outputChars f = 3 := by
  obtain ⟨k, rfl⟩ : ∃ k, f = k + 676 := ⟨f - 676, by omega⟩
  unfold outputChars
  rw [outputCharsAux_succ, if_pos (by omega), show k + 676 = (k + 675) + 1 from rfl,
    outputCharsAux_succ, if_pos (by omega), show k + 675 = (k + 674) + 1 from rfl,
    outputCharsAux_succ, if_neg (by omega)]

lemma fileRoundTrip (f : Nat) (hf : f < 1352) :
    fileFromStrToInt (fileFromIntToStr f) = f := by
  rcases Nat.lt_or_ge f 26 with h1 | h1
  · rw [fileFromIntToStr, outputChars_one f h1]
    simp [fileFromStrToInt, fileValueAux, List.range_succ]
    omega
  · rcases Nat.lt_or_ge f 676 with h2 | h2
    · rw [fileFromIntToStr, outputChars_two f h1 h2]
      simp [fileFromStrToInt, fileValueAux, List.range_succ]
      omega
    · rw [fileFromIntToStr, outputChars_three f h2 (by omega)]
      simp [fileFromStrToInt, fileValueAux, List.range_succ]
      have h3 : f / 676 = 1 := by omega
      rw [h3]
      norm_num
      omega

lemma natDigitsAux_foldl (fuel : Nat) :
    ∀ n : Nat, n ≤ fuel →
      ((natDigitsAux fuel n).reverse).foldl (fun a d => 10 * a + d) 0 = n := by
  induction fuel with
  | zero =>
    intro n hn
    have hz : n = 0 := by omega
    subst hz
    rfl
  | succ fuelLeft ih =>
    intro n hn
    match n with
    | 0 => rfl
    | m + 1 =>
      have hdiv : (m + 1) / 10 ≤ fuelLeft := by
        have := Nat.div_lt_self (Nat.succ_pos m) (by norm_num : 1 < 10)
        omega
      calc ((natDigitsAux (fuelLeft + 1) (m + 1)).reverse).foldl
              (fun a d => 10 * a + d) 0
          = (((natDigitsAux fuelLeft ((m + 1) / 10)).reverse) ++
              [(m + 1) % 10]).foldl (fun a d => 10 * a + d) 0 := by
            simp [natDigitsAux]
        _ = 10 * (((natDigitsAux fuelLeft ((m + 1) / 10)).reverse).foldl
              (fun a d => 10 * a + d) 0) + (m + 1) % 10 := by
            rw [List.foldl_append]
            rfl
        _ = 10 * ((m + 1) / 10) + (m + 1) % 10 := by rw [ih _ hdiv]
        _ = m + 1 := by omega

lemma rankRoundTrip (r : Nat) :
    rankFromStrToInt (rankFromIntToStr r) = (r : Int) := by
  rw [rankFromStrToInt, rankFromIntToStr, natDecimalDigits,
    natDigitsAux_foldl (r + 1) (r + 1) (le_refl _)]
  push_cast
  omega

/-- The four king/king/single-minor material sets tested by
`Normal.game_state`. -/
def minorSets : List (List Piece) :=
  [[⟨PieceKind.King, Side.White⟩, ⟨PieceKind.King, Side.Black⟩,
    ⟨PieceKind.Knight, Side.White⟩],
   [⟨PieceKind.King, Side.White⟩, ⟨PieceKind.King, Side.Black⟩,
    ⟨PieceKind.Knight, Side.Black⟩],
   [⟨PieceKind.King, Side.White⟩, ⟨PieceKind.King, Side.Black⟩,
    ⟨PieceKind.Bishop, Side.White⟩],
   [⟨PieceKind.King, Side.White⟩, ⟨PieceKind.King, Side.Black⟩,
    ⟨PieceKind.Bishop, Side.Black⟩]]

/-! Concrete states used by counterexamples, failing inputs and witnesses. -/

/-- White king on e1 in check from a black rook on e4; white rook on h1;
black king on a8; White to move, full castling rights. -/
def stC1 : GameState :=
  { board := [((4, 0), ⟨PieceKind.King, Side.White⟩),
              ((7, 0), ⟨PieceKind.Rook, Side.White⟩),
              ((4, 3), ⟨PieceKind.Rook, Side.Black⟩),
              ((0, 7), ⟨PieceKind.King, Side.Black⟩)]
    halfMoves := 1
    movesHistory := []
    boardHistory := []
    positionOccurence := []
    enPassant := none
    halfMovesSincePawnMoved := 0
    halfMovesSinceCapture := 0
    castling := [⟨PieceKind.King, Side.White⟩, ⟨PieceKind.Queen, Side.White⟩,
                 ⟨PieceKind.King, Side.Black⟩, ⟨PieceKind.Queen, Side.Black⟩]
    pocketWhite := []
    pocketBlack := [] }

/-- The initial position with both no-progress counters at 50 half-moves
(25 full moves). -/
def stC2 : GameState :=
  { initState with halfMovesSincePawnMoved := 50, halfMovesSinceCapture := 50 }

/-- Two states with identical board, castling rights and en-passant target
but different sides to move (half-move counters 1 and 2). -/
def stC3White : GameState :=
  { board := [((4, 0), ⟨PieceKind.King, Side.White⟩),
              ((4, 7), ⟨PieceKind.King, Side.Black⟩)]
    halfMoves := 1
    movesHistory := []
    boardHistory := []
    positionOccurence := []
    enPassant := none
    halfMovesSincePawnMoved := 0
    halfMovesSinceCapture := 0
    castling := []
    pocketWhite := []
    pocketBlack := [] }

/-- As `stC3White` but with Black to move. -/
def stC3Black : GameState :=
  { stC3White with halfMoves := 2 }

/-- The initial position with one board layout already counted 3 times in
the repetition table. -/
def stC3Rep : GameState :=
  { initState with positionOccurence := [(boardKey initBoard, 3)] }

/-- King and bishop versus bare king (white Ka1, Bb2, black Kh8), White to
move, both counters zero: White has legal moves available. -/
def stC4 : GameState :=
  { board := [((0, 0), ⟨PieceKind.King, Side.White⟩),
              ((1, 1), ⟨PieceKind.Bishop, Side.White⟩),
              ((7, 7), ⟨PieceKind.King, Side.Black⟩)]
    halfMoves := 1
    movesHistory := []
    boardHistory := []
    positionOccurence := []
    enPassant := none
    halfMovesSincePawnMoved := 0
    halfMovesSinceCapture := 0
    castling := []
    pocketWhite := []
    pocketBlack := [] }

/-- The double pawn advance e2–e4. -/
def mE2E4 : Move := ⟨(4, 1), (4, 3), none⟩

/-- A move from an empty square (e5 to e6 in the initial position). -/
def mEmptySource : Move := ⟨(4, 4), (4, 5), none⟩

/-! The claims. -/

/-- C1: the source's king-side castling generation checks only the transit
and destination squares (f1, g1) against the attacked set, never the king's
current square (e1).  In `stC1` the white king on e1 is attacked by the black
rook on e4, yet `special_moves` still generates g1 and `assert_move` (and the
full `move` commit) accepts `e1g1`: the code allows castling out of check,
contradicting the claim that the destination is generated only when none of
e1, f1, g1 is attacked. -/
theorem c1_castling_attack_check :
    ((4, 0) : Pos) ∈ attackedFieldsBySides
      (allSides.filter (fun s => ¬ s = onMove stC1)) stC1.board ∧
    ((6, 0) : Pos) ∈ (specialMoves stC1 stC1.board (4, 0)).toOption.getD [] ∧
    assertMove stC1 ⟨(4, 0), (6, 0), none⟩ = .ok () ∧
    (move stC1 ⟨(4, 0), (6, 0), none⟩).2 = .ok none := by
  decide

/-- C2: the source compares both no-progress counters against 50, not 100,
so the evaluator reports the draw with reason `fifty-move rule` already when
both half-move counters are 50 — half of the fifty-full-move threshold of
100 half-moves stated by the claim. -/
theorem c2_fifty_move_at_fifty :
    stC2.halfMovesSincePawnMoved = 50 ∧ stC2.halfMovesSinceCapture = 50 ∧
    gameState stC2 = (some allSides, some "fifty-move rule") := by
  decide

/-- C3 (counterexample): the repetition key recorded by a commit is a
function of the board layout alone (`hash(self.board)`), so two states that
differ in the side to move (here `stC3White` and `stC3Black`) share the same
key; the key does not distinguish side to move (nor castling rights or the
en-passant target), contrary to the claim.  The third conjunct shows that a
committed move records exactly the board key of the post-move board. -/
theorem c3_key_ignores_side_to_move :
    boardKey stC3White.board = boardKey stC3Black.board ∧
    ¬ onMove stC3White = onMove stC3Black ∧
    (move initState mE2E4).1.positionOccurence =
      [(boardKey (move initState mE2E4).1.board, 1)] := by
  decide

/-- C3 (amended): the repetition table is keyed by board layout only; in any
state where the material clauses cannot fire (at least four distinct pieces)
and the fifty-move clause cannot fire, the evaluator reports the draw
`threefold repetition` exactly when some board-layout key has been recorded
at least 3 times — regardless of the side to move, castling rights or
en-passant targets of the repeated occurrences. -/
theorem c3_threefold_by_board_key (st : GameState)
    (hmat : 4 ≤ (material st).length)
    (hfifty : st.halfMovesSincePawnMoved < 50) :
    gameState st = (some allSides, some "threefold repetition") ↔
      st.positionOccurence.any (fun e => 3 ≤ e.2) = true := by
  unfold gameState
  dsimp only
  split_ifs with h1 h2 h3 h4 h5 h6 h7 h8
  · exact absurd h1.1 (by omega)
  · exact absurd h2.1 (by omega)
  · exact absurd h3.1 (by omega)
  · exact absurd h4.1 (by omega)
  · exact absurd h5.1 (by omega)
  · exact absurd h6.1 (by omega)
  · simp [h7]
  · cases hk : (findPieces st.board ⟨PieceKind.King, onMove st⟩).head? with
    | none => simp [h7]
    | some kp =>
      dsimp only
      split_ifs with hatk
      · simp [h7]
      · simp [h7]
  · simp [h7]

/-- C3 (witness for the amended theorem), at the initial material with one
layout key counted three times. -/
theorem c3_threefold_by_board_key_witness :
    gameState stC3Rep = (some allSides, some "threefold repetition") ↔
      stC3Rep.positionOccurence.any (fun e => 3 ≤ e.2) = true :=
  c3_threefold_by_board_key stC3Rep (by decide) (by decide)

/-- C4 (counterexample): a position with exactly king + bishop versus bare
king in which the side to move has moves available is NOT reported as an
insufficient-material draw — the evaluator returns no result at all, because
the minor-piece clauses additionally require `not can_i_make_a_move()`,
contrary to the claim's "regardless of whether the side to move has moves
available". -/
theorem c4_insufficient_needs_no_move :
    pieceSetEq (material stC4)
      [⟨PieceKind.King, Side.White⟩, ⟨PieceKind.King, Side.Black⟩,
       ⟨PieceKind.Bishop, Side.White⟩] = true ∧
    stC4.halfMovesSincePawnMoved = 0 ∧ stC4.halfMovesSinceCapture = 0 ∧
    canIMakeAMove stC4 = true ∧
    gameState stC4 = (none, none) := by
  decide

set_option maxHeartbeats 1000000 in
/-- C4 (amended): for every position whose distinct-piece set is exactly the
two kings plus one knight or one bishop of either side, the evaluator
reports the draw `insufficient material` (for all sides) if and only if the
side to move has no move available — and then regardless of the values of
the move counters, since the material clause precedes the counter clauses. -/
theorem c4_insufficient_iff_no_move (st : GameState)
    (h : minorSets.any (fun t => pieceSetEq (material st) t) = true) :
    gameState st = (some allSides, some "insufficient material") ↔
      canIMakeAMove st = false := by
  simp only [minorSets, List.any_cons, List.any_nil, Bool.or_eq_true,
    Bool.or_false] at h
  rcases h with h | h | h | h
  · have hand : material st ⊆
        [⟨PieceKind.King, Side.White⟩, ⟨PieceKind.King, Side.Black⟩,
         ⟨PieceKind.Knight, Side.White⟩] ∧
        [(⟨PieceKind.King, Side.White⟩ : Piece), ⟨PieceKind.King, Side.Black⟩,
         ⟨PieceKind.Knight, Side.White⟩] ⊆ material st := by
      simpa [pieceSetEq] using h
    have hnd : (material st).Nodup := List.nodup_dedup _
    have hlen : (material st).length < 4 := by
      have hle := (hnd.subperm hand.1).length_le
      simp at hle
      omega
    have hmm : (⟨PieceKind.Knight, Side.White⟩ : Piece) ∈ material st :=
      hand.2 (by simp)
    have hkk : pieceSetEq (material st)
        [⟨PieceKind.King, Side.White⟩, ⟨PieceKind.King, Side.Black⟩] = false := by
      rw [pieceSetEq, decide_eq_false_iff_not]
      intro hc
      have hin := hc.1 hmm
      simp at hin
    cases hcm : canIMakeAMove st with
    | false =>
      refine iff_of_true ?_ rfl
      unfold gameState
      dsimp only
      split_ifs with g1 g2 g3 g4 g5 g6 g7 g8 <;>
        first | rfl | exact absurd ⟨hlen, h, hcm⟩ g2
    | true =>
      refine iff_of_false ?_ (by simp)
      unfold gameState
      dsimp only
      split_ifs with g1 g2 g3 g4 g5 g6 g7 g8
      · rw [g1.2] at hkk
        exact absurd hkk (by simp)
      · rw [g2.2.2] at hcm
        exact absurd hcm (by simp)
      · rw [g3.2.2] at hcm
        exact absurd hcm (by simp)
      · rw [g4.2.2] at hcm
        exact absurd hcm (by simp)
      · rw [g5.2.2] at hcm
        exact absurd hcm (by simp)
      · simp
      · simp
      · rw [g8] at hcm
        exact absurd hcm (by simp)
      · simp
  · have hand : material st ⊆
        [⟨PieceKind.King, Side.White⟩, ⟨PieceKind.King, Side.Black⟩,
         ⟨PieceKind.Knight, Side.Black⟩] ∧
        [(⟨PieceKind.King, Side.White⟩ : Piece), ⟨PieceKind.King, Side.Black⟩,
         ⟨PieceKind.Knight, Side.Black⟩] ⊆ material st := by
      simpa [pieceSetEq] using h
    have hnd : (material st).Nodup := List.nodup_dedup _
    have hlen : (material st).length < 4 := by
      have hle := (hnd.subperm hand.1).length_le
      simp at hle
      omega
    have hmm : (⟨PieceKind.Knight, Side.Black⟩ : Piece) ∈ material st :=
      hand.2 (by simp)
    have hkk : pieceSetEq (material st)
        [⟨PieceKind.King, Side.White⟩, ⟨PieceKind.King, Side.Black⟩] = false := by
      rw [pieceSetEq, decide_eq_false_iff_not]
      intro hc
      have hin := hc.1 hmm
      simp at hin
    cases hcm : canIMakeAMove st with
    | false =>
      refine iff_of_true ?_ rfl
      unfold gameState
      dsimp only
      split_ifs with g1 g2 g3 g4 g5 g6 g7 g8 <;>
        first | rfl | exact absurd ⟨hlen, h, hcm⟩ g3
    | true =>
      refine iff_of_false ?_ (by simp)
      unfold gameState
      dsimp only
      split_ifs with g1 g2 g3 g4 g5 g6 g7 g8
      · rw [g1.2] at hkk
        exact absurd hkk (by simp)
      · rw [g2.2.2] at hcm
        exact absurd hcm (by simp)
      · rw [g3.2.2] at hcm
        exact absurd hcm (by simp)
      · rw [g4.2.2] at hcm
        exact absurd hcm (by simp)
      · rw [g5.2.2] at hcm
        exact absurd hcm (by simp)
      · simp
      · simp
      · rw [g8] at hcm
        exact absurd hcm (by simp)
      · simp
  · have hand : material st ⊆
        [⟨PieceKind.King, Side.White⟩, ⟨PieceKind.King, Side.Black⟩,
         ⟨PieceKind.Bishop, Side.White⟩] ∧
        [(⟨PieceKind.King, Side.White⟩ : Piece), ⟨PieceKind.King, Side.Black⟩,
         ⟨PieceKind.Bishop, Side.White⟩] ⊆ material st := by
      simpa [pieceSetEq] using h
    have hnd : (material st).Nodup := List.nodup_dedup _
    have hlen : (material st).length < 4 := by
      have hle := (hnd.subperm hand.1).length_le
      simp at hle
      omega
    have hmm : (⟨PieceKind.Bishop, Side.White⟩ : Piece) ∈ material st :=
      hand.2 (by simp)
    have hkk : pieceSetEq (material st)
        [⟨PieceKind.King, Side.White⟩, ⟨PieceKind.King, Side.Black⟩] = false := by
      rw [pieceSetEq, decide_eq_false_iff_not]
      intro hc
      have hin := hc.1 hmm
      simp at hin
    cases hcm : canIMakeAMove st with
    | false =>
      refine iff_of_true ?_ rfl
      unfold gameState
      dsimp only
      split_ifs with g1 g2 g3 g4 g5 g6 g7 g8 <;>
        first | rfl | exact absurd ⟨hlen, h, hcm⟩ g4
    | true =>
      refine iff_of_false ?_ (by simp)
      unfold gameState
      dsimp only
      split_ifs with g1 g2 g3 g4 g5 g6 g7 g8
      · rw [g1.2] at hkk
        exact absurd hkk (by simp)
      · rw [g2.2.2] at hcm
        exact absurd hcm (by simp)
      · rw [g3.2.2] at hcm
        exact absurd hcm (by simp)
      · rw [g4.2.2] at hcm
        exact absurd hcm (by simp)
      · rw [g5.2.2] at hcm
        exact absurd hcm (by simp)
      · simp
      · simp
      · rw [g8] at hcm
        exact absurd hcm (by simp)
      · simp
  · have hand : material st ⊆
        [⟨PieceKind.King, Side.White⟩, ⟨PieceKind.King, Side.Black⟩,
         ⟨PieceKind.Bishop, Side.Black⟩] ∧
        [(⟨PieceKind.King, Side.White⟩ : Piece), ⟨PieceKind.King, Side.Black⟩,
         ⟨PieceKind.Bishop, Side.Black⟩] ⊆ material st := by
      simpa [pieceSetEq] using h
    have hnd : (material st).Nodup := List.nodup_dedup _
    have hlen : (material st).length < 4 := by
      have hle := (hnd.subperm hand.1).length_le
      simp at hle
      omega
    have hmm : (⟨PieceKind.Bishop, Side.Black⟩ : Piece) ∈ material st :=
      hand.2 (by simp)
    have hkk : pieceSetEq (material st)
        [⟨PieceKind.King, Side.White⟩, ⟨PieceKind.King, Side.Black⟩] = false := by
      rw [pieceSetEq, decide_eq_false_iff_not]
      intro hc
      have hin := hc.1 hmm
      simp at hin
    cases hcm : canIMakeAMove st with
    | false =>
      refine iff_of_true ?_ rfl
      unfold gameState
      dsimp only
      split_ifs with g1 g2 g3 g4 g5 g6 g7 g8 <;>
        first | rfl | exact absurd ⟨hlen, h, hcm⟩ g5
    | true =>
      refine iff_of_false ?_ (by simp)
      unfold gameState
      dsimp only
      split_ifs with g1 g2 g3 g4 g5 g6 g7 g8
      · rw [g1.2] at hkk
        exact absurd hkk (by simp)
      · rw [g2.2.2] at hcm
        exact absurd hcm (by simp)
      · rw [g3.2.2] at hcm
        exact absurd hcm (by simp)
      · rw [g4.2.2] at hcm
        exact absurd hcm (by simp)
      · rw [g5.2.2] at hcm
        exact absurd hcm (by simp)
      · simp
      · simp
      · rw [g8] at hcm
        exact absurd hcm (by simp)
      · simp

/-- C4 (witness for the amended theorem), at king+bishop versus king with
moves available: the evaluator gives no verdict. -/
theorem c4_insufficient_iff_no_move_witness :
    gameState stC4 = (some allSides, some "insufficient material") ↔
      canIMakeAMove stC4 = false :=
  c4_insufficient_iff_no_move stC4 (by decide)

/-- C5: committing any legal move and then rolling back one ply
(`load_history(1)`) restores the exact prior state string.  The hypothesis
`hlen` is the snapshot-stack invariant of every reachable state (stack length
= number of committed moves = half-move counter − 1), which makes the
source's rollback index `half_moves - offset - 1` point at the snapshot the
commit pushed. -/
theorem c5_move_rollback_restores_state_string (st : GameState) (m : Move)
    (hlen : st.boardHistory.length + 1 = st.halfMoves)
    (hok : (move st m).2.isOk = true) :
    (loadHistory 1 (move st m).1).map stateString = some (stateString st) := by
  unfold move at hok ⊢
  cases ha : assertMove st m with
  | error e =>
    rw [ha] at hok
    simp [Except.isOk, Except.toBool] at hok
  | ok u =>
    rw [ha] at hok
    dsimp only at hok ⊢
    cases hg : getPiece st.board m.source with
    | none =>
      rw [hg] at hok
      simp [Except.isOk, Except.toBool] at hok
    | some piece =>
      rw [hg] at hok
      dsimp only at hok ⊢
      by_cases hs : piece.side = onMove st
      · rw [if_pos hs]
        have hidx : (commitMove st m piece).boardHistory.get?
            ((commitMove st m piece).halfMoves - 1 - 1) = some (snapshot st) := by
          show (st.boardHistory ++ [snapshot st]).get? (st.halfMoves + 1 - 1 - 1) = _
          have heq : st.halfMoves + 1 - 1 - 1 = st.boardHistory.length := by omega
          rw [heq]
          exact get_concat_length _ _
        unfold loadHistory
        rw [hidx]
        rfl
      · rw [if_neg hs] at hok
        simp [Except.isOk, Except.toBool] at hok

/-- C5 (witness) at the initial state and the double pawn advance e2–e4. -/
theorem c5_move_rollback_restores_state_string_witness :
    (loadHistory 1 (move initState mE2E4).1).map stateString =
      some (stateString initState) :=
  c5_move_rollback_restores_state_string initState mE2E4 (by decide) (by decide)

/-- C6: whenever `Normal.move` raises a validation error (NoPiece,
NotAValidMove, CausesCheck, NotAValidPromotion or WrongMoveOrder — or the
unreachable missing-king IndexError), the state the caller is left with is
exactly the input state: every mutation of the source happens after the last
possible raise.  `assert_move` itself is read-only by its embedded type
`GameState → Move → Except Err Unit` — it returns no state at all, mirroring
the fact that the source only reads `self` and mutates a deep copy. -/
theorem c6_rejected_move_leaves_state_unchanged (st : GameState) (m : Move)
    (e : Err) (h : (move st m).2 = .error e) : (move st m).1 = st := by
  unfold move at h ⊢
  cases ha : assertMove st m with
  | error e2 => rfl
  | ok u =>
    rw [ha] at h
    dsimp only at h ⊢
    cases hg : getPiece st.board m.source with
    | none => rfl
    | some piece =>
      rw [hg] at h
      dsimp only at h ⊢
      by_cases hs : piece.side = onMove st
      · rw [if_pos hs] at h
        exact absurd h (by simp)
      · rw [if_neg hs]

/-- C6 (witness): moving from the empty square e5 in the initial position is
rejected with NoPiece and leaves the state unchanged. -/
theorem c6_rejected_move_leaves_state_unchanged_witness :
    (move initState mEmptySource).1 = initState :=
  c6_rejected_move_leaves_state_unchanged initState mEmptySource Err.noPiece
    (by decide)

/-- C7: no call of `Normal.move` ever adds an entry to the castling-rights
set: the resulting set is always a subset of the previous one, both on a
committed move (`__update_castling_info` only subtracts) and on a rejected
one (the state is unchanged); monotone non-increase over any sequence of
commits follows by chaining this single-step inclusion. -/
theorem c7_castling_rights_never_grow (st : GameState) (m : Move) :
    (move st m).1.castling ⊆ st.castling := by
  unfold move
  cases ha : assertMove st m with
  | error e => exact fun x hx => hx
  | ok u =>
    dsimp only
    cases hg : getPiece st.board m.source with
    | none => exact fun x hx => hx
    | some piece =>
      dsimp only
      by_cases hs : piece.side = onMove st
      · rw [if_pos hs]
        exact updateCastlingInfo_subset _ _ _
      · rw [if_neg hs]
        exact fun x hx => hx

/-- C8: in the state produced by initializing the engine with the standard
initial layout, White is the side to move and the full legal-move
enumeration for White contains exactly 20 moves. -/
theorem c8_initial_position_twenty_moves :
    onMove initState = Side.White ∧
    (allAvailableMoves initState Side.White).length = 20 := by
  decide

/-- C9 (counterexample): the position-to-text conversion is not a bijection
on all non-negative coordinates: file 1352 renders as the letter values
[2, 0, 0] ("caa"), but parsing that string yields 2704, because the parser
computes `(value * 26) ** counter` instead of `value * 26 ** counter`. -/
theorem c9_file_roundtrip_fails_at_1352 :
    fileFromIntToStr 1352 = [2, 0, 0] ∧
    fileFromStrToInt [2, 0, 0] = 2704 ∧
    ¬ fileFromStrToInt (fileFromIntToStr 1352) = 1352 := by
  decide

/-- C9 (amended): rendering and re-parsing is the identity on every rank
and on every file below 1352 (files whose base-26 digits beyond the two
lowest are at most 1, which includes every file of the 8×8 board); the first
failure is at file 1352. -/
theorem c9_position_text_roundtrip (f r : Nat) (hf : f < 1352) :
    fileFromStrToInt (fileFromIntToStr f) = f ∧
    rankFromStrToInt (rankFromIntToStr r) = (r : Int) :=
  ⟨fileRoundTrip f hf, rankRoundTrip r⟩

/-- C9 (witness for the amended theorem) at file 26 ("ba"), rank 9 ("10"). -/
theorem c9_position_text_roundtrip_witness :
    fileFromStrToInt (fileFromIntToStr 26) = 26 ∧
    rankFromStrToInt (rankFromIntToStr 9) = (9 : Int) :=
  c9_position_text_roundtrip 26 9 (by decide)

/-- C10: on an empty source square, each of the four generator queries —
`standard_moves`, `standard_captures`, `special_moves`, `attacked_fields` —
raises NoPiece. -/
theorem c10_generators_raise_nopiece_on_empty (st : GameState) (pos : Pos)
    (h : getPiece st.board pos = none) :
    standardMoves st.board pos = .error .noPiece ∧
    standardCaptures st st.board pos = .error .noPiece ∧
    specialMoves st st.board pos = .error .noPiece ∧
    attackedFields st.board pos = .error .noPiece := by
  refine ⟨?_, ?_, ?_, ?_⟩ <;>
    simp only [standardMoves, standardCaptures, specialMoves, attackedFields, h]

/-- C10 (witness) at the empty square e5 of the initial position. -/
theorem c10_generators_raise_nopiece_on_empty_witness :
    standardMoves initState.board ((4, 4) : Pos) = .error .noPiece ∧
    standardCaptures initState initState.board ((4, 4) : Pos) = .error .noPiece ∧
    specialMoves initState initState.board ((4, 4) : Pos) = .error .noPiece ∧
    attackedFields initState.board ((4, 4) : Pos) = .error .noPiece :=
  c10_generators_raise_nopiece_on_empty initState ((4, 4) : Pos) (by decide)

end Chess
